import Mathlib

/-!
Verification of the signal-and-record ingestion layer of `swprocess`:
the waveform resampling/stacking engine (`utprocess/timeseries.py`),
the sensor format adapter (`swprocess/sensor1c.py`) and the peak-record
pattern builders (`swprocess/regex.py`), shallowly embedded over exact
rational arithmetic.
-/

/-- Python exception kinds raised by the embedded code.  `valueError`
carries the message string used at the raise site. -/
inductive PyError where
  | valueError (msg : String)
  | typeError
  | indexError
  | assertionError
  | notImplementedError
  deriving DecidableEq, Repr

/-- Round-half-to-even on rationals, the rounding rule of `np.round`
(ties go to the even integer). -/
def roundHalfEven (q : ℚ) : ℤ :=
  let f : ℤ := ⌊q⌋
  let r : ℚ := q - (f : ℚ)
  if r < 1/2 then f
  else if 1/2 < r then f + 1
  else if f % 2 = 0 then f else f + 1

/-- State of `utprocess.timeseries.TimeSeries`: amplitude samples
(`self.amp`), sample interval (`self.dt`), stored sample count
(`self.nsamples`), stack count (`self._nstack`), pre-trigger delay
(`self.delay`) and zero-pad multiple (`self.multiple`).  The derived
attributes `fs`, `fnyq`, `df` are pure functions of these. -/
@[ext]
structure TimeSeries where
  amp : List ℚ
  dt : ℚ
  nsamples : ℕ
  nstack : ℕ
  delay : ℚ
  multiple : ℕ
  deriving DecidableEq, Repr

namespace TimeSeries

/-- `TimeSeries.__init__`: stores the amplitude, sets
`nsamples = len(amp)`, hardcodes `self._nstack = 1` (the `nstacks`
argument is ignored), asserts `delay <= 0`, and sets `multiple = 1`.
`fs = 1/dt` is computed before the assert, so `dt = 0` raises a
`ZeroDivisionError` first; over ℚ division is total, so the embedding
keeps only the observable `assert(delay <= 0)`. -/
def init (amplitude : List ℚ) (dt : ℚ) (nstacks : ℕ) (delay : ℚ) :
    Except PyError TimeSeries :=
  let _ := nstacks
  if delay ≤ 0 then
    .ok ⟨amplitude, dt, amplitude.length, 1, delay, 1⟩
  else
    .error .assertionError

/-- `nreq = int(np.round(1/(df*self.dt)))` from `TimeSeries.zero_pad`. -/
def nreqOf (ts : TimeSeries) (df : ℚ) : ℕ :=
  (roundHalfEven (1 / (df * ts.dt))).toNat

/-- The ordered candidate multiples `np.array([1, 2, 4, 8, 16, 32])`
searched by `TimeSeries.zero_pad`. -/
def mults : List ℕ := [1, 2, 4, 8, 16, 32]

/-- `TimeSeries.zero_pad(df)`: rejects non-positive `df` with a
`ValueError`; if `nreq > nsamples` pads with zeros up to `nreq`
(leaving `multiple` untouched); otherwise selects the first candidate
multiple `m` with `nsamples < nreq*m` and pads up to `nreq*m`, or, if
`np.where` yields no index, raises `IndexError` at the
`multiples[...]` subscript before any attribute is written.  Returns
the state as mutated so far together with the raised error, if any. -/
def zero_pad (ts : TimeSeries) (df : ℚ) : TimeSeries × Option PyError :=
  if df ≤ 0 then (ts, some (.valueError (r"df must be positive.")))
  else
    let nreq := ts.nreqOf df
    if ts.nsamples < nreq then
      (⟨ts.amp ++ List.replicate (nreq - ts.nsamples) 0, ts.dt, nreq,
        ts.nstack, ts.delay, ts.multiple⟩, none)
    else
      match mults.find? (fun m => ts.nsamples < nreq * m) with
      | some m =>
          (⟨ts.amp ++ List.replicate (nreq * m - ts.nsamples) 0, ts.dt,
            nreq * m, ts.nstack, ts.delay, m⟩, none)
      | none => (ts, some .indexError)

/-- `TimeSeries.stack_append(amplitude, dt, nstacks)`: raises
`IndexError` before any mutation when the incoming length differs from
the current one; otherwise rewrites the amplitude to the weighted
running mean `(amp*_nstack + amplitude*nstacks)/(_nstack + nstacks)`
and increments `_nstack` by `nstacks`.  The `dt` argument is unused by
the source.  Returns the state as mutated so far together with the
raised error, if any. -/
def stack_append (ts : TimeSeries) (amplitude : List ℚ) (dt : ℚ)
    (nstacks : ℕ) : TimeSeries × Option PyError :=
  let _ := dt
  if amplitude.length ≠ ts.amp.length then (ts, some .indexError)
  else
    (⟨List.zipWith
        (fun a b => (a * (ts.nstack : ℚ) + b * (nstacks : ℚ)) /
          ((ts.nstack : ℚ) + (nstacks : ℚ)))
        ts.amp amplitude,
      ts.dt, ts.nsamples, ts.nstack + nstacks, ts.delay, ts.multiple⟩,
     none)

/-- Sequentially `stack_append` each `(amplitude, nstacks)` recording
of a list onto a waveform, keeping the (possibly unchanged) state of
each call as the source's in-place mutation does. -/
def stackAll (ts : TimeSeries) (l : List (List ℚ × ℕ)) : TimeSeries :=
  l.foldl (fun s r => (s.stack_append r.1 s.dt r.2).1) ts

end TimeSeries

/-- Modelled from the spec: `swprocess.ActiveTimeSeries`, the waveform
base class of `Sensor1C`, is imported by `sensor1c.py` but its module is
not part of the sources at hand.  Per the spec's Waveform data model it
carries the amplitude sequence, `dt`, the stack count, the delay
(constrained `≤ 0`) and the zero-pad multiple (default 1). -/
@[ext]
structure ActiveTimeSeries where
  amp : List ℚ
  dt : ℚ
  nstacks : ℤ
  delay : ℚ
  multiple : ℕ
  deriving DecidableEq, Repr

namespace ActiveTimeSeries

/-- Modelled from the spec: the `ActiveTimeSeries` constructor stores
the supplied amplitude, `dt`, stack count and delay (spec §3 Waveform
lifecycle, §4.2 Convention B yielding `stackCount = field + 1`), with
the `delay ≤ 0` invariant enforced at construction (spec §3 and the §9
note that a positive Convention-B delay makes construction fail). -/
def init (amplitude : List ℚ) (dt : ℚ) (nstacks : ℤ) (delay : ℚ) :
    Except PyError ActiveTimeSeries :=
  if delay ≤ 0 then .ok ⟨amplitude, dt, nstacks, delay, 1⟩
  else .error .assertionError

/-- Modelled from the spec: waveform equality compares the amplitude
arrays elementwise and requires the same `dt`, stack count and delay
(spec §4.2 Equality). -/
def beq (a b : ActiveTimeSeries) : Bool :=
  a.amp == b.amp && a.dt == b.dt && a.nstacks == b.nstacks &&
    a.delay == b.delay

/-- Modelled from the spec: waveform similarity is a relaxed equality
over the sampling metadata (`dt`, stack count, delay, sample count) in
which caller-named attributes are excluded from comparison (spec §4.2
Similarity); amplitude values are not compared. -/
def isSimilar (a b : ActiveTimeSeries) (exclude : List String) : Bool :=
  (exclude.contains (r"dt") || a.dt == b.dt) &&
  (exclude.contains (r"nstacks") || a.nstacks == b.nstacks) &&
  (exclude.contains (r"delay") || a.delay == b.delay) &&
  (exclude.contains (r"nsamples") || a.amp.length == b.amp.length)

end ActiveTimeSeries

/-- The SU trace header fields read by `Sensor1C._from_trace_su`
(`trace.stats.su.trace_header`). -/
structure SuHeader where
  number_of_horizontally_stacked_traces_yielding_this_trace : ℤ
  delay_recording_time : ℚ
  group_coordinate_x : ℤ
  group_coordinate_y : ℤ
  deriving DecidableEq, Repr

/-- The SEG2 trace header fields read by `Sensor1C._from_trace_seg2`
(`trace.stats.seg2`). -/
structure Seg2Header where
  STACK : ℤ
  DELAY : ℚ
  RECEIVER_LOCATION : ℚ
  deriving DecidableEq, Repr

/-- `trace.stats`: `_format` is `none` when reading the format tag
raises (the bare `except` of `Sensor1C.from_trace`), `delta` is the
sampling interval, and the two format-specific header blocks. -/
structure TraceStats where
  _format : Option String
  delta : ℚ
  seg2 : Seg2Header
  su : SuHeader
  deriving DecidableEq, Repr

/-- An external trace object: sample data plus stats. -/
structure Trace where
  data : List ℚ
  stats : TraceStats
  deriving DecidableEq, Repr

/-- `swprocess.Sensor1C`: an `ActiveTimeSeries` plus the receiver
position set by `_set_position`. -/
@[ext]
structure Sensor1C where
  ats : ActiveTimeSeries
  x : ℚ
  y : ℚ
  z : ℚ
  deriving DecidableEq, Repr

namespace Sensor1C

/-- `Sensor1C.__init__`: construct the underlying waveform via the
superclass constructor, then `_set_position(x, y, z)`. -/
def init (amplitude : List ℚ) (dt : ℚ) (x y z : ℚ) (nstacks : ℤ)
    (delay : ℚ) : Except PyError Sensor1C :=
  (ActiveTimeSeries.init amplitude dt nstacks delay).map
    (fun a => ⟨a, x, y, z⟩)

/-- `Sensor1C.from_trace(trace, read_header=False, ...)` after the
format tag has been read: wraps the trace data with the caller-supplied
metadata (used by both `_from_trace_*` adapters, which re-enter
`from_trace` with `read_header=False`). -/
def fromTraceRaw (tr : Trace) (nstacks : ℤ) (delay x y z : ℚ) :
    Except PyError Sensor1C :=
  match tr.stats._format with
  | none => .error (.valueError (r"Trace type could not be identified."))
  | some _ => init tr.data tr.stats.delta x y z nstacks delay

/-- `Sensor1C._from_trace_seg2`: Convention A — `nstacks` from
`int(header.STACK)`, `delay` from `float(header.DELAY)`, `x` from
`float(header.RECEIVER_LOCATION)`, `y = z = 0`. -/
def _from_trace_seg2 (tr : Trace) : Except PyError Sensor1C :=
  fromTraceRaw tr tr.stats.seg2.STACK tr.stats.seg2.DELAY
    tr.stats.seg2.RECEIVER_LOCATION 0 0

/-- `Sensor1C._from_trace_su`: Convention B — `nstacks` from
`int(header[nstack_key]) + 1`, `delay` from
`float(header["delay_recording_time"])`, `x` and `y` from the group
coordinates divided by 1000, `z = 0`. -/
def _from_trace_su (tr : Trace) : Except PyError Sensor1C :=
  fromTraceRaw tr
    (tr.stats.su.number_of_horizontally_stacked_traces_yielding_this_trace + 1)
    tr.stats.su.delay_recording_time
    ((tr.stats.su.group_coordinate_x : ℚ) / 1000)
    ((tr.stats.su.group_coordinate_y : ℚ) / 1000)
    0

/-- `Sensor1C.from_trace`: reads `trace.stats._format.upper()` (a
failure to read raises `ValueError("Trace type could not be
identified.")`); with `read_header` set, dispatches on the tag to the
SEG2 or SU adapter and raises `NotImplementedError` for any other tag;
otherwise wraps the data with the caller-supplied metadata. -/
def from_trace (tr : Trace) (read_header : Bool) (nstacks : ℤ)
    (delay x y z : ℚ) : Except PyError Sensor1C :=
  match tr.stats._format with
  | none => .error (.valueError (r"Trace type could not be identified."))
  | some f =>
    if read_header then
      if f.toUpper == r"SEG2" then _from_trace_seg2 tr
      else if f.toUpper == r"SU" then _from_trace_su tr
      else .error .notImplementedError
    else init tr.data tr.stats.delta x y z nstacks delay

/-- `Sensor1C._is_similar(other, exclude)`: compares `x`, `y`, `z`
except those named in `exclude`, then defers to the superclass
similarity check. -/
def _is_similar (s o : Sensor1C) (exclude : List String) : Bool :=
  (exclude.contains (r"x") || s.x == o.x) &&
  (exclude.contains (r"y") || s.y == o.y) &&
  (exclude.contains (r"z") || s.z == o.z) &&
  ActiveTimeSeries.isSimilar s.ats o.ats exclude

/-- `Sensor1C.__eq__(other)`: returns `False` when the superclass
equality rejects, and `True` otherwise — the position is never
compared. -/
def eq (s o : Sensor1C) : Bool :=
  if ¬ (ActiveTimeSeries.beq s.ats o.ats) then false
  else true

end Sensor1C

/-- Python `str.capitalize()`: first character uppercased, the
remainder lowercased. -/
def pyCapitalize (s : String) : String :=
  match s.data with
  | [] => String.mk []
  | c :: rest => String.mk (c.toUpper :: rest.map Char.toLower)

/-- The recognized wave-type vocabulary of `swprocess.regex`. -/
def recognizedWavetypes : List String :=
  [r"rayleigh", r"love", r"vertical", r"radial", r"transverse"]

/-- The default `time` argument of both pattern builders:
`"(\d+\.?\d*)"`. -/
def defaultTime : String := r"(\d+\.?\d*)"

/-- The `number` sub-pattern of `get_peak_from_max`:
`"-?\d+.?\d*[eE]?[+-]?\d*"`. -/
def numberPattern : String := r"-?\d+.?\d*[eE]?[+-]?\d*"

/-- `regex.get_peak_from_max(wavetype, time)`: capitalizes `wavetype`
only when it is in the recognized vocabulary, then interpolates the
f-string pattern with seven capturing groups and the terminating
literal `1`. -/
def get_peak_from_max (wavetype : String) (time : String) : String :=
  let wt := if recognizedWavetypes.contains wavetype
            then pyCapitalize wavetype else wavetype
  time ++ r" (\d+\.?\d*) " ++ wt ++ r" (" ++ numberPattern ++ r") (" ++
    numberPattern ++ r") (" ++ numberPattern ++
    r") (\d+\.?\d*|-?inf|nan) (\d+\.?\d*) 1"

/-- `regex.get_all(wavetype, time)`: interpolates
`f"{time} .* {wavetype.capitalize()} .* 1"` — the capitalization is
applied unconditionally. -/
def get_all (wavetype : String) (time : String) : String :=
  time ++ r" .* " ++ pyCapitalize wavetype ++ r" .* 1"

/-- Abstract syntax of the regular-expression dialect used by the
compiled peak patterns: literal characters, the `\d` class, the
any-character dot, bracket classes, concatenation, alternation and the
greedy `?`, `*`, `+` quantifiers, plus numbered capturing groups. -/
inductive RE where
  | eps
  | ch (c : Char)
  | digit
  | dot
  | cls (cs : List Char)
  | cat (a b : RE)
  | alt (a b : RE)
  | opt (a : RE)
  | star (a : RE)
  | plus (a : RE)
  | group (idx : ℕ) (a : RE)
  deriving DecidableEq, Repr

/-- Lift a literal string to the concatenation of its characters. -/
def strToRE (s : String) : RE :=
  s.data.foldr (fun c acc => RE.cat (RE.ch c) acc) RE.eps

/-- Print the pattern back to Python `re` syntax (adequate for the
dialect above with atomic quantifier bodies, as used here). -/
def reToString : RE → String
  | RE.eps => String.mk []
  | RE.ch c => if c = '.' then r"\." else String.mk [c]
  | RE.digit => r"\d"
  | RE.dot => r"."
  | RE.cls cs => r"[" ++ String.mk cs ++ r"]"
  | RE.cat a b => reToString a ++ reToString b
  | RE.alt a b => reToString a ++ r"|" ++ reToString b
  | RE.opt a => reToString a ++ r"?"
  | RE.star a => reToString a ++ r"*"
  | RE.plus a => reToString a ++ r"+"
  | RE.group _ a => r"(" ++ reToString a ++ r")"

/-- Backtracking matcher.  `mat fuel r s g` returns, in the priority
order of Python's leftmost-greedy backtracking engine, every pair of
an updated capture list and an unconsumed suffix reachable by matching
`r` at the head of `s`; captures are `(index, text)` pairs with the
most recent assignment first.  `fuel` bounds the recursion depth and
is chosen large enough for every concrete evaluation below. -/
def mat : ℕ → RE → List Char → List (ℕ × String) →
    List (List (ℕ × String) × List Char)
  | 0, _, _, _ => []
  | _ + 1, RE.eps, s, g => [(g, s)]
  | _ + 1, RE.ch c, s, g =>
    match s with
    | [] => []
    | x :: xs => if x = c then [(g, xs)] else []
  | _ + 1, RE.digit, s, g =>
    match s with
    | [] => []
    | x :: xs => if x.isDigit then [(g, xs)] else []
  | _ + 1, RE.dot, s, g =>
    match s with
    | [] => []
    | x :: xs => if x = Char.ofNat 10 then [] else [(g, xs)]
  | _ + 1, RE.cls cs, s, g =>
    match s with
    | [] => []
    | x :: xs => if cs.contains x then [(g, xs)] else []
  | fuel + 1, RE.cat a b, s, g =>
    (mat fuel a s g).flatMap (fun p => mat fuel b p.2 p.1)
  | fuel + 1, RE.alt a b, s, g => mat fuel a s g ++ mat fuel b s g
  | fuel + 1, RE.opt a, s, g => mat fuel a s g ++ [(g, s)]
  | fuel + 1, RE.star a, s, g =>
    (mat fuel a s g).flatMap
      (fun p => if p.2.length < s.length then mat fuel (RE.star a) p.2 p.1
                else []) ++ [(g, s)]
  | fuel + 1, RE.plus a, s, g =>
    (mat fuel a s g).flatMap (fun p => mat fuel (RE.star a) p.2 p.1)
  | fuel + 1, RE.group i a, s, g =>
    (mat fuel a s g).map
      (fun p => ((i, String.mk (s.take (s.length - p.2.length))) :: p.1, p.2))

/-- Recursion-depth bound passed to `mat`; ample for the peak patterns
and report lines considered here. -/
def reFuel : ℕ := 400

/-- `re.search` semantics: try the pattern at each start position from
the left, returning the first backtracking match (captures and
unconsumed suffix). -/
def reSearch (r : RE) : List Char → Option (List (ℕ × String) × List Char)
  | [] => (mat reFuel r [] []).head?
  | s@(_ :: xs) =>
    match (mat reFuel r s []).head? with
    | some p => some p
    | none => reSearch r xs

/-- The numbered captures `1..n` of a successful search, in
left-to-right group order. -/
def capturedGroups (r : RE) (line : String) (n : ℕ) :
    Option (List (Option String)) :=
  (reSearch r line.data).map
    (fun p => (List.range n).map (fun i => p.1.lookup (i + 1)))

/-- The compiled form of the unsigned-decimal sub-pattern
`\d+\.?\d*` (used for the time, frequency and quality fields). -/
def unsignedDecRE : RE :=
  RE.cat (RE.plus RE.digit)
    (RE.cat (RE.opt (RE.ch '.')) (RE.star RE.digit))

/-- The compiled form of `number = "-?\d+.?\d*[eE]?[+-]?\d*"`; note the
unescaped `.` which matches any character. -/
def numberRE : RE :=
  RE.cat (RE.opt (RE.ch '-'))
    (RE.cat (RE.plus RE.digit)
      (RE.cat (RE.opt RE.dot)
        (RE.cat (RE.star RE.digit)
          (RE.cat (RE.opt (RE.cls ['e', 'E']))
            (RE.cat (RE.opt (RE.cls ['+', '-'])) (RE.star RE.digit))))))

/-- The compiled form of the quality alternation
`\d+\.?\d*|-?inf|nan`. -/
def qualityRE : RE :=
  RE.alt
    (RE.alt unsignedDecRE
      (RE.cat (RE.opt (RE.ch '-')) (strToRE (r"inf"))))
    (strToRE (r"nan"))

/-- Concatenate the given patterns in order. -/
def catList (l : List RE) : RE := l.foldr RE.cat RE.eps

/-- The compiled form of `get_peak_from_max(wavetype)` at the default
`time` argument: seven numbered capturing groups separated by single
spaces, the (conditionally capitalized) wave-type literal, and the
terminating uncaptured literal `1`. -/
def getPeakRE (wavetype : String) : RE :=
  let wt := if recognizedWavetypes.contains wavetype
            then pyCapitalize wavetype else wavetype
  catList
    [RE.group 1 unsignedDecRE, RE.ch ' ',
     RE.group 2 unsignedDecRE, RE.ch ' ',
     strToRE wt, RE.ch ' ',
     RE.group 3 numberRE, RE.ch ' ',
     RE.group 4 numberRE, RE.ch ' ',
     RE.group 5 numberRE, RE.ch ' ',
     RE.group 6 qualityRE, RE.ch ' ',
     RE.group 7 unsignedDecRE, RE.ch ' ',
     RE.ch '1']

/-- The example `.max` report line of the spec's parser-precision
property. -/
def maxLine : String :=
  r"12.5 0.045 Rayleigh -3.2e-01 4.5e+00 -1.0e+00 0.95 0.88 1"

/-- Numeric value of a digit string. -/
def digitsVal (cs : List Char) : ℕ :=
  cs.foldl (fun n c => 10 * n + (c.toNat - 48)) 0

/-- Parse an unsigned decimal `digits[.digits]` as a rational. -/
def parseDecCore (cs : List Char) : Option ℚ :=
  let ip := cs.takeWhile Char.isDigit
  let rest := cs.dropWhile Char.isDigit
  if ip.isEmpty then none
  else
    match rest with
    | [] => some (digitsVal ip : ℚ)
    | c :: frac =>
      if c = '.' && frac.all Char.isDigit then
        some ((digitsVal ip : ℚ) +
          (digitsVal frac : ℚ) / (10 : ℚ) ^ frac.length)
      else none

/-- Parse an optionally negated decimal as a rational. -/
def parseDec (cs : List Char) : Option ℚ :=
  match cs with
  | '-' :: t => (parseDecCore t).map (fun q => -q)
  | _ => parseDecCore cs

/-- Parse a decimal with an optional `e`/`E` exponent part as an exact
rational, e.g. `-3.2e-01` to `-8/25`. -/
def parseSci (s : String) : Option ℚ :=
  let cs := s.data
  let mant := cs.takeWhile (fun c => !(c = 'e' || c = 'E'))
  let rest := cs.dropWhile (fun c => !(c = 'e' || c = 'E'))
  match rest with
  | [] => parseDec mant
  | _ :: ex =>
    let se : ℤ × List Char :=
      match ex with
      | '+' :: t => (1, t)
      | '-' :: t => (-1, t)
      | t => (1, t)
    if !se.2.isEmpty && se.2.all Char.isDigit then
      (parseDec mant).map
        (fun m => m * (10 : ℚ) ^ (se.1 * (digitsVal se.2 : ℤ)))
    else none

/-- Fuse the per-element division out of the stacking combination. -/
lemma zipWith_div_fuse (A B : List ℚ) (p q : ℚ) :
    List.zipWith (fun a b => (a * p + b * q) / (p + q)) A B =
      (List.zipWith (fun a b => a * p + b * q) A B).map
        (fun x => x / (p + q)) := by
  induction A generalizing B with
  | nil => simp
  | cons a as ih =>
    cases B with
    | nil => simp
    | cons b bs => simp [ih]

/-- Push one weighting factor into the left list. -/
lemma zipWith_scaled (A B : List ℚ) (p q : ℚ) :
    List.zipWith (fun a b => a * p + b * q) A B =
      List.zipWith (fun s b => s + b * q) (A.map (fun a => a * p)) B := by
  induction A generalizing B with
  | nil => simp
  | cons a as ih =>
    cases B with
    | nil => simp
    | cons b bs => simp [ih]

/-- Dividing and then multiplying by a nonzero constant is the
identity, elementwise. -/
lemma map_div_mul_cancel (W : List ℚ) (c : ℚ) (hc : c ≠ 0) :
    (W.map (fun x => x / c)).map (fun x => x * c) = W := by
  induction W with
  | nil => rfl
  | cons w ws ih => simp [ih, div_mul_cancel₀ w hc]

/-- Multiplying and then dividing by a nonzero constant is the
identity, elementwise. -/
lemma map_mul_div_cancel (A : List ℚ) (c : ℚ) (hc : c ≠ 0) :
    (A.map (fun a => a * c)).map (fun x => x / c) = A := by
  induction A with
  | nil => rfl
  | cons a as ih => simp [ih, mul_div_cancel_right₀ a hc]

/-- Accumulate one weighted recording into a running weighted sum. -/
def wsum (S : List ℚ) (r : List ℚ × ℕ) : List ℚ :=
  List.zipWith (fun s b => s + b * (r.2 : ℚ)) S r.1

/-- Weighted accumulations commute with each other. -/
lemma zipWith_add_right_comm (S B1 B2 : List ℚ) (q1 q2 : ℚ) :
    List.zipWith (fun s b => s + b * q2)
        (List.zipWith (fun s b => s + b * q1) S B1) B2 =
      List.zipWith (fun s b => s + b * q1)
        (List.zipWith (fun s b => s + b * q2) S B2) B1 := by
  induction S generalizing B1 B2 with
  | nil => simp
  | cons s ss ih =>
    cases B1 with
    | nil => cases B2 <;> simp
    | cons b1 bs1 =>
      cases B2 with
      | nil => simp
      | cons b2 bs2 =>
        simp only [List.zipWith_cons_cons, List.cons.injEq]
        exact ⟨by ring, ih bs1 bs2⟩

instance : RightCommutative wsum :=
  ⟨fun S r1 r2 => zipWith_add_right_comm S r1.1 r2.1 r1.2 r2.2⟩

/-- Closed form of sequentially stack-appending a list of recordings:
the amplitude is the weighted sum of all constituents divided by the
total stack count, and the stack count is the total; all other fields
are preserved. -/
lemma stackAll_closed (l : List (List ℚ × ℕ)) :
    ∀ ts : TimeSeries, (∀ r ∈ l, r.1.length = ts.amp.length) →
      0 < ts.nstack →
      TimeSeries.stackAll ts l =
        ⟨(l.foldl wsum (ts.amp.map (fun a => a * (ts.nstack : ℚ)))).map
            (fun x => x /
              ((ts.nstack : ℚ) + (((l.map (fun r => r.2)).sum : ℕ) : ℚ))),
          ts.dt, ts.nsamples, ts.nstack + (l.map (fun r => r.2)).sum,
          ts.delay, ts.multiple⟩ := by
  induction l with
  | nil =>
    intro ts _ hp
    have hc : ((ts.nstack : ℕ) : ℚ) ≠ 0 := by
      exact_mod_cast hp.ne'
    obtain ⟨A, dtv, ns, p, dl, mu⟩ := ts
    simp only [TimeSeries.stackAll, List.foldl_nil, List.map_nil,
      List.sum_nil, Nat.cast_zero, add_zero]
    rw [map_mul_div_cancel A _ hc]
  | cons r rest ih =>
    intro ts hlen hp
    have hrlen : r.1.length = ts.amp.length := hlen r (List.mem_cons_self r rest)
    have hstep : (ts.stack_append r.1 ts.dt r.2).1 =
        ⟨List.zipWith
            (fun a b => (a * (ts.nstack : ℚ) + b * (r.2 : ℚ)) /
              ((ts.nstack : ℚ) + (r.2 : ℚ))) ts.amp r.1,
          ts.dt, ts.nsamples, ts.nstack + r.2, ts.delay, ts.multiple⟩ := by
      simp [TimeSeries.stack_append, hrlen]
    have hall : TimeSeries.stackAll ts (r :: rest) =
        TimeSeries.stackAll (ts.stack_append r.1 ts.dt r.2).1 rest := by
      simp [TimeSeries.stackAll]
    have hpq : ((ts.nstack : ℚ) + (r.2 : ℚ)) ≠ 0 := by
      have h1 : (0 : ℚ) < (ts.nstack : ℚ) := by exact_mod_cast hp
      have h2 : (0 : ℚ) ≤ (r.2 : ℚ) := by positivity
      linarith
    have hlen1 : ∀ r' ∈ rest, r'.1.length =
        (List.zipWith
            (fun a b => (a * (ts.nstack : ℚ) + b * (r.2 : ℚ)) /
              ((ts.nstack : ℚ) + (r.2 : ℚ))) ts.amp r.1).length := by
      intro r' hr'
      rw [List.length_zipWith, hrlen, min_self]
      exact hlen r' (List.mem_cons_of_mem _ hr')
    have hp1 : 0 < ts.nstack + r.2 := by omega
    have hbase :
        (List.zipWith
            (fun a b => (a * (ts.nstack : ℚ) + b * (r.2 : ℚ)) /
              ((ts.nstack : ℚ) + (r.2 : ℚ))) ts.amp r.1).map
          (fun a => a * (((ts.nstack + r.2 : ℕ)) : ℚ)) =
        wsum (ts.amp.map (fun a => a * (ts.nstack : ℚ))) r := by
      rw [zipWith_div_fuse]
      have hcast : (((ts.nstack + r.2 : ℕ)) : ℚ) =
          (ts.nstack : ℚ) + (r.2 : ℚ) := by push_cast; ring
      rw [hcast, map_div_mul_cancel _ _ hpq, zipWith_scaled]
      rfl
    have hdiv : ((((ts.nstack + r.2 : ℕ)) : ℚ) +
          (((rest.map (fun r => r.2)).sum : ℕ) : ℚ)) =
        ((ts.nstack : ℚ) +
          ((((r :: rest).map (fun r => r.2)).sum : ℕ) : ℚ)) := by
      simp only [List.map_cons, List.sum_cons]; push_cast; ring
    rw [hall, hstep, ih _ hlen1 hp1]
    apply TimeSeries.ext
    case amp => dsimp only; rw [hbase, List.foldl_cons]; simp only [hdiv]
    case nstack => dsimp only; simp only [List.map_cons, List.sum_cons]; omega
    all_goals rfl

/-- `getD` through a `zipWith` at an in-bounds index. -/
lemma zipWith_getD (f : ℚ → ℚ → ℚ) (A B : List ℚ) (i : ℕ)
    (hA : i < A.length) (hB : i < B.length) :
    (List.zipWith f A B).getD i 0 = f (A.getD i 0) (B.getD i 0) := by
  induction A generalizing B i with
  | nil => simp at hA
  | cons a as ih =>
    cases B with
    | nil => simp at hB
    | cons b bs =>
      cases i with
      | zero => simp
      | succ j =>
        simp only [List.zipWith_cons_cons, List.getD_cons_succ]
        exact ih bs j (by simpa using hA) (by simpa using hB)

/-- `getD` through a `map` at an in-bounds index. -/
lemma map_getD (f : ℚ → ℚ) (W : List ℚ) (i : ℕ) (hi : i < W.length) :
    (W.map f).getD i 0 = f (W.getD i 0) := by
  induction W generalizing i with
  | nil => simp at hi
  | cons w ws ih =>
    cases i with
    | zero => simp
    | succ j =>
      simp only [List.map_cons, List.getD_cons_succ]
      exact ih j (by simpa using hi)

/-- Folding weighted sums preserves the length. -/
lemma foldl_wsum_length (l : List (List ℚ × ℕ)) :
    ∀ S : List ℚ, (∀ r ∈ l, r.1.length = S.length) →
      (l.foldl wsum S).length = S.length := by
  induction l with
  | nil => intro S _; rfl
  | cons r rest ih =>
    intro S hlen
    have hr : r.1.length = S.length := hlen r (List.mem_cons_self r rest)
    have hw : (wsum S r).length = S.length := by
      simp only [wsum, List.length_zipWith, hr, min_self]
    rw [List.foldl_cons, ih (wsum S r) ?_, hw]
    intro r' hr'
    rw [hw]
    exact hlen r' (List.mem_cons_of_mem _ hr')

/-- Elementwise value of a fold of weighted sums: the base plus the
weighted contributions of every recording. -/
lemma foldl_wsum_getD (l : List (List ℚ × ℕ)) :
    ∀ (S : List ℚ) (i : ℕ), i < S.length →
      (∀ r ∈ l, r.1.length = S.length) →
      (l.foldl wsum S).getD i 0 =
        S.getD i 0 + (l.map (fun r => r.1.getD i 0 * (r.2 : ℚ))).sum := by
  induction l with
  | nil => intro S i _ _; simp
  | cons r rest ih =>
    intro S i hi hlen
    have hr : r.1.length = S.length := hlen r (List.mem_cons_self r rest)
    have hw : (wsum S r).length = S.length := by
      simp only [wsum, List.length_zipWith, hr, min_self]
    rw [List.foldl_cons, ih (wsum S r) i (by rw [hw]; exact hi) ?_]
    · have hval : (wsum S r).getD i 0 =
          S.getD i 0 + r.1.getD i 0 * (r.2 : ℚ) := by
        simp only [wsum]
        exact zipWith_getD _ S r.1 i hi (by rw [hr]; exact hi)
      rw [hval]
      simp only [List.map_cons, List.sum_cons]
      ring
    · intro r' hr'
      rw [hw]
      exact hlen r' (List.mem_cons_of_mem _ hr')

/-- On the ordered candidate list, `find?` returns exactly the least
satisfying multiple. -/
lemma find_mults_least (n q m : ℕ) (hm : m ∈ TimeSeries.mults)
    (hlt : n < q * m)
    (hleast : ∀ k ∈ TimeSeries.mults, n < q * k → m ≤ k) :
    TimeSeries.mults.find? (fun k => n < q * k) = some m := by
  have hmem : m = 1 ∨ m = 2 ∨ m = 4 ∨ m = 8 ∨ m = 16 ∨ m = 32 := by
    simpa [TimeSeries.mults] using hm
  simp only [TimeSeries.mults]
  by_cases h1 : n < q * 1
  · have hle1 : m ≤ 1 := hleast 1 (by simp [TimeSeries.mults]) h1
    have : m = 1 := by rcases hmem with h | h | h | h | h | h <;> omega
    subst this
    rw [List.find?_cons_of_pos _ (by simpa using h1)]
  · rw [List.find?_cons_of_neg _ (by simpa using h1)]
    by_cases h2 : n < q * 2
    · have hle2 : m ≤ 2 := hleast 2 (by simp [TimeSeries.mults]) h2
      have : m = 2 := by
        rcases hmem with h | h | h | h | h | h <;> subst h <;> omega
      subst this
      rw [List.find?_cons_of_pos _ (by simpa using h2)]
    · rw [List.find?_cons_of_neg _ (by simpa using h2)]
      by_cases h4 : n < q * 4
      · have hle4 : m ≤ 4 := hleast 4 (by simp [TimeSeries.mults]) h4
        have : m = 4 := by
          rcases hmem with h | h | h | h | h | h <;> subst h <;> omega
        subst this
        rw [List.find?_cons_of_pos _ (by simpa using h4)]
      · rw [List.find?_cons_of_neg _ (by simpa using h4)]
        by_cases h8 : n < q * 8
        · have hle8 : m ≤ 8 := hleast 8 (by simp [TimeSeries.mults]) h8
          have : m = 8 := by
            rcases hmem with h | h | h | h | h | h <;> subst h <;> omega
          subst this
          rw [List.find?_cons_of_pos _ (by simpa using h8)]
        · rw [List.find?_cons_of_neg _ (by simpa using h8)]
          by_cases h16 : n < q * 16
          · have hle16 : m ≤ 16 := hleast 16 (by simp [TimeSeries.mults]) h16
            have : m = 16 := by
              rcases hmem with h | h | h | h | h | h <;> subst h <;> omega
            subst this
            rw [List.find?_cons_of_pos _ (by simpa using h16)]
          · rw [List.find?_cons_of_neg _ (by simpa using h16)]
            have : m = 32 := by
              rcases hmem with h | h | h | h | h | h <;> subst h <;> omega
            subst this
            rw [List.find?_cons_of_pos _ (by simpa using hlt)]

/-- The compiled rayleigh pattern prints back to exactly the string
built by `get_peak_from_max("rayleigh")` at the default `time`. -/
theorem getPeakRE_prints_rayleigh :
    reToString (getPeakRE (r"rayleigh")) =
      get_peak_from_max (r"rayleigh") defaultTime := by
  with_unfolding_all rfl

/-- The compiled love pattern prints back to exactly the string built
by `get_peak_from_max("love")` at the default `time`. -/
theorem getPeakRE_prints_love :
    reToString (getPeakRE (r"love")) =
      get_peak_from_max (r"love") defaultTime := by
  with_unfolding_all rfl

/-- Claim C8: the line
`"12.5 0.045 Rayleigh -3.2e-01 4.5e+00 -1.0e+00 0.95 0.88 1"` matches
the strict peak pattern for wavetype `rayleigh` (default time
constraint), yielding exactly the seven captured groups corresponding
to `(12.5, 0.045, -0.32, 4.5, -1.0, 0.95, 0.88)` in left-to-right
order, with the terminating flag `1` consumed (the match reaches the
end of the line) but not captured (there is no eighth group); the same
line does not match the strict pattern for wavetype `love`. -/
theorem peak_line_strict_match :
    capturedGroups (getPeakRE (r"rayleigh")) maxLine 7 =
      some [some (r"12.5"), some (r"0.045"), some (r"-3.2e-01"),
        some (r"4.5e+00"), some (r"-1.0e+00"), some (r"0.95"),
        some (r"0.88")] ∧
    (reSearch (getPeakRE (r"rayleigh")) maxLine.data).map
        (fun p => (p.1.lookup 8, p.2)) = some (none, []) ∧
    (capturedGroups (getPeakRE (r"rayleigh")) maxLine 7).map
        (fun gs => gs.map (fun g => g.bind parseSci)) =
      some [some (25/2), some (9/200), some (-8/25), some (9/2),
        some (-1), some (19/20), some (22/25)] ∧
    reSearch (getPeakRE (r"love")) maxLine.data = none := by
  refine ⟨?_, ?_, ?_, ?_⟩ <;> with_unfolding_all rfl

/-- Claim C9, counterexample: for the unrecognized wavetype `"xray"`
the loose builder `get_all` does not insert the label verbatim — the
compiled pattern contains the capitalized `"Xray"` instead. -/
theorem get_all_not_verbatim_cex :
    recognizedWavetypes.contains (r"xray") = false ∧
    get_all (r"xray") defaultTime =
      defaultTime ++ r" .* " ++ r"Xray" ++ r" .* 1" ∧
    get_all (r"xray") defaultTime ≠
      defaultTime ++ r" .* " ++ r"xray" ++ r" .* 1" := by
  refine ⟨?_, ?_, ?_⟩
  · with_unfolding_all rfl
  · with_unfolding_all rfl
  · with_unfolding_all decide

/-- Claim C9, amended: for every wavetype outside the recognized
vocabulary, the strict builder `get_peak_from_max` inserts the
supplied label verbatim, while the loose builder `get_all` always
inserts `str.capitalize` of the label (first character uppercased,
remainder lowercased), regardless of recognition. -/
theorem pattern_builders_label_insertion (w t : String)
    (hw : recognizedWavetypes.contains w = false) :
    get_peak_from_max w t =
      t ++ r" (\d+\.?\d*) " ++ w ++ r" (" ++ numberPattern ++ r") (" ++
        numberPattern ++ r") (" ++ numberPattern ++
        r") (\d+\.?\d*|-?inf|nan) (\d+\.?\d*) 1" ∧
    get_all w t = t ++ r" .* " ++ pyCapitalize w ++ r" .* 1" := by
  constructor
  · have hw' : w ∉ recognizedWavetypes := by simpa using hw
    simp [get_peak_from_max, hw']
  · rfl

theorem pattern_builders_label_insertion_witness :
    recognizedWavetypes.contains (r"xray") = false ∧
    (get_peak_from_max (r"xray") defaultTime =
      defaultTime ++ r" (\d+\.?\d*) " ++ r"xray" ++ r" (" ++
        numberPattern ++ r") (" ++ numberPattern ++ r") (" ++
        numberPattern ++ r") (\d+\.?\d*|-?inf|nan) (\d+\.?\d*) 1" ∧
     get_all (r"xray") defaultTime =
       defaultTime ++ r" .* " ++ pyCapitalize (r"xray") ++ r" .* 1") :=
  ⟨by with_unfolding_all rfl,
   pattern_builders_label_insertion (r"xray") defaultTime
     (by with_unfolding_all rfl)⟩

/-- Claim C10: constructing the waveform type stores an internal stack
count of 1 regardless of the `nstacks` argument, so a first subsequent
stack-average append weights the constructed amplitude as a single
recording. -/
theorem init_stack_count_is_one (a : List ℚ) (dtv : ℚ) (n : ℕ) (d : ℚ)
    (hd : d ≤ 0) :
    ∃ ts : TimeSeries, TimeSeries.init a dtv n d = .ok ts ∧
      ts.nstack = 1 ∧
      ∀ (b : List ℚ) (k : ℕ), b.length = ts.amp.length →
        (ts.stack_append b dtv k).1.amp =
          List.zipWith
            (fun u v => (u * (1 : ℚ) + v * (k : ℚ)) / ((1 : ℚ) + (k : ℚ)))
            ts.amp b := by
  refine ⟨⟨a, dtv, a.length, 1, d, 1⟩, ?_, rfl, ?_⟩
  · simp [TimeSeries.init, hd]
  · intro b k hb
    simp [TimeSeries.stack_append, hb]

theorem init_stack_count_is_one_witness :
    (0 : ℚ) ≤ 0 ∧
    ∃ ts : TimeSeries, TimeSeries.init [2] 1 7 0 = .ok ts ∧
      ts.nstack = 1 ∧
      ∀ (b : List ℚ) (k : ℕ), b.length = ts.amp.length →
        (ts.stack_append b 1 k).1.amp =
          List.zipWith
            (fun u v => (u * (1 : ℚ) + v * (k : ℚ)) / ((1 : ℚ) + (k : ℚ)))
            ts.amp b :=
  ⟨le_refl 0, init_stack_count_is_one [2] 1 7 0 (le_refl 0)⟩

/-- Claim C3, counterexample: a waveform whose `multiple` is 4 after a
previous non-expanding pad, when zero-padded in the expanding case
(`requiredSamples = 100 > 20 = sampleCount`), is padded to 100 samples
but keeps `zeroPadMultiple = 4` — the operation does not set it to 1
as claimed. -/
theorem zero_pad_expand_multiple_cex :
    TimeSeries.init (List.replicate 10 0) 1 1 0 =
      .ok ⟨List.replicate 10 0, 1, 10, 1, 0, 1⟩ ∧
    (TimeSeries.zero_pad ⟨List.replicate 10 0, 1, 10, 1, 0, 1⟩ (1/5)).1 =
      ⟨List.replicate 20 0, 1, 20, 1, 0, 4⟩ ∧
    TimeSeries.nreqOf ⟨List.replicate 20 0, 1, 20, 1, 0, 4⟩ (1/100) = 100 ∧
    (TimeSeries.zero_pad ⟨List.replicate 20 0, 1, 20, 1, 0, 4⟩ (1/100)).2 =
      none ∧
    (TimeSeries.zero_pad
        ⟨List.replicate 20 0, 1, 20, 1, 0, 4⟩ (1/100)).1.nsamples = 100 ∧
    (TimeSeries.zero_pad
        ⟨List.replicate 20 0, 1, 20, 1, 0, 4⟩ (1/100)).1.multiple = 4 ∧
    ¬ ((TimeSeries.zero_pad
        ⟨List.replicate 20 0, 1, 20, 1, 0, 4⟩ (1/100)).1.multiple = 1) := by
  refine ⟨?_, ?_, ?_, ?_, ?_, ?_, ?_⟩ <;> first
    | with_unfolding_all rfl
    | with_unfolding_all decide

/-- Claim C3, amended: in the expanding case
(`requiredSamples > sampleCount`) the zero-pad operation appends
exactly `requiredSamples - sampleCount` zero samples, sets
`sampleCount = requiredSamples`, and leaves `zeroPadMultiple` at its
previous value (which is 1 for a waveform that has never been padded
in the non-expanding case); in particular, for `dt = 0.002`,
`sampleCount = 1000`, `targetDf = 0.2`, a freshly constructed record
ends with `sampleCount = 2500` and `zeroPadMultiple = 1`. -/
theorem zero_pad_expand (ts : TimeSeries) (df : ℚ) (_hdt : 0 < ts.dt)
    (hdf : 0 < df) (hgt : ts.nsamples < ts.nreqOf df) :
    ts.zero_pad df =
      (⟨ts.amp ++ List.replicate (ts.nreqOf df - ts.nsamples) 0, ts.dt,
        ts.nreqOf df, ts.nstack, ts.delay, ts.multiple⟩, none) := by
  have h0 : ¬ (df ≤ 0) := not_le.mpr hdf
  simp [TimeSeries.zero_pad, h0, hgt]

theorem zero_pad_expand_witness :
    (0 : ℚ) < (⟨[1, 2, 3], 1, 3, 1, 0, 1⟩ : TimeSeries).dt ∧
    (0 : ℚ) < 1/10 ∧
    (⟨[1, 2, 3], 1, 3, 1, 0, 1⟩ : TimeSeries).nsamples <
      TimeSeries.nreqOf ⟨[1, 2, 3], 1, 3, 1, 0, 1⟩ (1/10) ∧
    TimeSeries.zero_pad ⟨[1, 2, 3], 1, 3, 1, 0, 1⟩ (1/10) =
      (⟨[1, 2, 3] ++ List.replicate
          (TimeSeries.nreqOf ⟨[1, 2, 3], 1, 3, 1, 0, 1⟩ (1/10) - 3) 0, 1,
        TimeSeries.nreqOf ⟨[1, 2, 3], 1, 3, 1, 0, 1⟩ (1/10), 1, 0, 1⟩,
       none) :=
  ⟨by with_unfolding_all decide, by with_unfolding_all decide,
   by with_unfolding_all decide,
   zero_pad_expand ⟨[1, 2, 3], 1, 3, 1, 0, 1⟩ (1/10)
     (by with_unfolding_all decide) (by with_unfolding_all decide)
     (by with_unfolding_all decide)⟩

/-- Claim C5: stack-average append raises the length-mismatch error
exactly when the incoming amplitude's length differs from the current
one, and whenever stack-append or zero-pad raises any error the
waveform state is returned exactly as it was — no partial mutation. -/
theorem engine_error_atomicity (ts : TimeSeries) (a : List ℚ)
    (dtv : ℚ) (k : ℕ) (df : ℚ) :
    ((ts.stack_append a dtv k).2 = some PyError.indexError ↔
      a.length ≠ ts.amp.length) ∧
    ((ts.stack_append a dtv k).2 ≠ none →
      (ts.stack_append a dtv k).1 = ts) ∧
    ((ts.zero_pad df).2 ≠ none → (ts.zero_pad df).1 = ts) := by
  refine ⟨?_, ?_, ?_⟩
  · by_cases h : a.length = ts.amp.length
    · simp [TimeSeries.stack_append, h]
    · simp [TimeSeries.stack_append, h]
  · by_cases h : a.length = ts.amp.length
    · simp [TimeSeries.stack_append, h]
    · simp [TimeSeries.stack_append, h]
  · intro herr
    by_cases hdf : df ≤ 0
    · simp [TimeSeries.zero_pad, hdf]
    · by_cases hlt : ts.nsamples < ts.nreqOf df
      · exfalso
        simp [TimeSeries.zero_pad, hdf, hlt] at herr
      · rcases hfind : TimeSeries.mults.find?
            (fun m => ts.nsamples < ts.nreqOf df * m) with _ | m
        · simp [TimeSeries.zero_pad, hdf, hlt, hfind]
        · exfalso
          simp [TimeSeries.zero_pad, hdf, hlt, hfind] at herr

theorem engine_error_atomicity_witness :
    ((TimeSeries.stack_append ⟨[1], 1, 1, 1, 0, 1⟩ [1, 2] 1 1).2 =
      some PyError.indexError) ∧
    ((TimeSeries.stack_append ⟨[1], 1, 1, 1, 0, 1⟩ [1, 2] 1 1).1 =
      ⟨[1], 1, 1, 1, 0, 1⟩) ∧
    ((TimeSeries.zero_pad ⟨List.replicate 64 0, 1, 64, 1, 0, 1⟩ (1/2)).1 =
      ⟨List.replicate 64 0, 1, 64, 1, 0, 1⟩) :=
  ⟨(engine_error_atomicity ⟨[1], 1, 1, 1, 0, 1⟩ [1, 2] 1 1 (1/2)).1.mpr
      (by with_unfolding_all decide),
   (engine_error_atomicity ⟨[1], 1, 1, 1, 0, 1⟩ [1, 2] 1 1 (1/2)).2.1
      (by with_unfolding_all decide),
   (engine_error_atomicity ⟨List.replicate 64 0, 1, 64, 1, 0, 1⟩ [1, 2] 1 1
      (1/2)).2.2 (by with_unfolding_all decide)⟩

/-- Claim C7: the code's sensor equality check returns `True` for two
sensors that differ only in their `x` coordinate (position is never
compared, contradicting both the specified equality and the
similarity check, which does compare coordinates: the two sensors are
"equal" yet not "similar"). -/
theorem sensor_eq_ignores_position :
    ∃ s1 s2 : Sensor1C,
      Sensor1C.init [1, 2] 1 0 0 0 1 0 = .ok s1 ∧
      Sensor1C.init [1, 2] 1 1 0 0 1 0 = .ok s2 ∧
      Sensor1C.eq s1 s2 = true ∧ ¬ (s1.x = s2.x) ∧
      Sensor1C._is_similar s1 s2 [] = false ∧
      Sensor1C._is_similar s1 s2 [r"x"] = true := by
  refine ⟨⟨⟨[1, 2], 1, 1, 0, 1⟩, 0, 0, 0⟩, ⟨⟨[1, 2], 1, 1, 0, 1⟩, 1, 0, 0⟩,
    ?_, ?_, ?_, ?_, ?_, ?_⟩
  · with_unfolding_all rfl
  · with_unfolding_all rfl
  · with_unfolding_all rfl
  · with_unfolding_all decide
  · with_unfolding_all rfl
  · with_unfolding_all rfl

/-- The sensor constructor either succeeds or fails the
delay-assertion; it raises neither of the two format errors. -/
lemma init_no_format_errors (a : List ℚ) (dtv x y z : ℚ) (n : ℤ)
    (d : ℚ) (e : PyError) (he : e ≠ PyError.assertionError) :
    Sensor1C.init a dtv x y z n d ≠ .error e := by
  by_cases hd : d ≤ 0
  · simp [Sensor1C.init, ActiveTimeSeries.init, hd, Except.map]
  · simp only [Sensor1C.init, ActiveTimeSeries.init, if_neg hd,
      Except.map_error]
    intro hh
    exact he (Except.error.inj hh).symm

/-- The SEG2 adapter raises neither of the two format errors when the
format tag is readable. -/
lemma seg2_no_format_errors (tr : Trace) (f : String)
    (hf : tr.stats._format = some f) (e : PyError)
    (he : e ≠ PyError.assertionError) :
    Sensor1C._from_trace_seg2 tr ≠ .error e := by
  simp only [Sensor1C._from_trace_seg2, Sensor1C.fromTraceRaw, hf]
  exact init_no_format_errors _ _ _ _ _ _ _ _ he

/-- The SU adapter raises neither of the two format errors when the
format tag is readable. -/
lemma su_no_format_errors (tr : Trace) (f : String)
    (hf : tr.stats._format = some f) (e : PyError)
    (he : e ≠ PyError.assertionError) :
    Sensor1C._from_trace_su tr ≠ .error e := by
  simp only [Sensor1C._from_trace_su, Sensor1C.fromTraceRaw, hf]
  exact init_no_format_errors _ _ _ _ _ _ _ _ he

/-- Claim C6: sensor construction from a trace raises the value error
"Trace type could not be identified." exactly when the trace has no
readable format tag, and raises the not-implemented error exactly when
header parsing is requested (the default) and the format tag is
readable but, uppercased, is neither `SEG2` nor `SU`; no other input
triggers either error. -/
theorem from_trace_error_conditions (tr : Trace) (rh : Bool) (n : ℤ)
    (d x y z : ℚ) :
    (Sensor1C.from_trace tr rh n d x y z =
        .error (.valueError (r"Trace type could not be identified.")) ↔
      tr.stats._format = none) ∧
    (Sensor1C.from_trace tr rh n d x y z = .error .notImplementedError ↔
      (rh = true ∧ ∃ f, tr.stats._format = some f ∧
        ¬ (f.toUpper = r"SEG2") ∧ ¬ (f.toUpper = r"SU"))) := by
  rcases hfmt : tr.stats._format with _ | f
  · constructor
    · simp [Sensor1C.from_trace, hfmt]
    · simp [Sensor1C.from_trace, hfmt]
  · constructor
    · have hnone : ((some f : Option String) = none) ↔ False := by simp
      simp only [Sensor1C.from_trace, hfmt, hnone, iff_false]
      intro h
      by_cases hrh : rh = true
      · rw [if_pos hrh] at h
        by_cases h2 : (f.toUpper == r"SEG2") = true
        · rw [if_pos h2] at h
          exact seg2_no_format_errors tr f hfmt _ (by simp) h
        · rw [if_neg h2] at h
          by_cases h3 : (f.toUpper == r"SU") = true
          · rw [if_pos h3] at h
            exact su_no_format_errors tr f hfmt _ (by simp) h
          · rw [if_neg h3] at h
            exact absurd h (by simp)
      · rw [if_neg hrh] at h
        exact init_no_format_errors _ _ _ _ _ _ _ _ (by simp) h
    · simp only [Sensor1C.from_trace, hfmt]
      constructor
      · intro h
        by_cases hrh : rh = true
        · rw [if_pos hrh] at h
          by_cases h2 : (f.toUpper == r"SEG2") = true
          · rw [if_pos h2] at h
            exact absurd h (seg2_no_format_errors tr f hfmt _ (by simp))
          · rw [if_neg h2] at h
            by_cases h3 : (f.toUpper == r"SU") = true
            · rw [if_pos h3] at h
              exact absurd h (su_no_format_errors tr f hfmt _ (by simp))
            · exact ⟨hrh, f, rfl, by simpa using h2, by simpa using h3⟩
        · rw [if_neg hrh] at h
          exact absurd h (init_no_format_errors _ _ _ _ _ _ _ _ (by simp))
      · rintro ⟨hrh, f', hf', h2, h3⟩
        have hff : f = f' := Option.some.inj hf'
        subst hff
        rw [if_pos hrh, if_neg (by simpa using h2), if_neg (by simpa using h3)]

theorem from_trace_error_conditions_witness :
    ((Sensor1C.from_trace
        ⟨[1], ⟨none, 1, ⟨1, 0, 0⟩, ⟨4, 0, 12000, 6000⟩⟩⟩ true 1 0 0 0 0 =
      .error (.valueError (r"Trace type could not be identified.")))) ∧
    ((Sensor1C.from_trace
        ⟨[1], ⟨some (r"foo"), 1, ⟨1, 0, 0⟩, ⟨4, 0, 12000, 6000⟩⟩⟩
        true 1 0 0 0 0 = .error .notImplementedError)) ∧
    (¬ (Sensor1C.from_trace
        ⟨[1], ⟨some (r"foo"), 1, ⟨1, 0, 0⟩, ⟨4, 0, 12000, 6000⟩⟩⟩
        false 1 0 0 0 0 = .error .notImplementedError)) :=
  ⟨(from_trace_error_conditions
      ⟨[1], ⟨none, 1, ⟨1, 0, 0⟩, ⟨4, 0, 12000, 6000⟩⟩⟩ true 1 0 0 0 0).1.mpr
      rfl,
   (from_trace_error_conditions
      ⟨[1], ⟨some (r"foo"), 1, ⟨1, 0, 0⟩, ⟨4, 0, 12000, 6000⟩⟩⟩
      true 1 0 0 0 0).2.mpr
      ⟨rfl, (r"foo"), rfl, by with_unfolding_all decide,
       by with_unfolding_all decide⟩,
   fun h =>
     (by with_unfolding_all decide :
       ¬ ((false = true) ∧ ∃ f, (some (r"foo") : Option String) = some f ∧
         ¬ (f.toUpper = r"SEG2") ∧ ¬ (f.toUpper = r"SU")))
       ((from_trace_error_conditions
          ⟨[1], ⟨some (r"foo"), 1, ⟨1, 0, 0⟩, ⟨4, 0, 12000, 6000⟩⟩⟩
          false 1 0 0 0 0).2.mp h)⟩

/-- Claim C1: for every SU-style (Convention B) trace whose header
reports 4 horizontally stacked traces, `group_coordinate_x = 12000`
and `group_coordinate_y = 6000` (with a non-positive recording delay,
as required by the waveform constructor), constructing a sensor from
the trace with header parsing requested yields a sensor with
`stackCount = 5`, `x = 12.0`, `y = 6.0` and `z = 0`; the
caller-supplied metadata arguments are ignored. -/
theorem su_convention_b_adapter (tr : Trace) (f : String)
    (hf : tr.stats._format = some f) (hfu : f.toUpper = r"SU")
    (h4 : tr.stats.su.number_of_horizontally_stacked_traces_yielding_this_trace
      = 4)
    (hx : tr.stats.su.group_coordinate_x = 12000)
    (hy : tr.stats.su.group_coordinate_y = 6000)
    (hd : tr.stats.su.delay_recording_time ≤ 0)
    (n : ℤ) (d x0 y0 z0 : ℚ) :
    ∃ s : Sensor1C, Sensor1C.from_trace tr true n d x0 y0 z0 = .ok s ∧
      s.ats.nstacks = 5 ∧ s.x = 12 ∧ s.y = 6 ∧ s.z = 0 := by
  have h2 : ((r"SU") == (r"SEG2")) = false := by with_unfolding_all rfl
  have h3 : ((r"SU") == (r"SU")) = true := by with_unfolding_all rfl
  refine ⟨⟨⟨tr.data, tr.stats.delta, 5, tr.stats.su.delay_recording_time, 1⟩,
    12, 6, 0⟩, ?_, rfl, rfl, rfl, rfl⟩
  simp only [Sensor1C.from_trace, hf, hfu, h2, h3, if_true, if_false,
    Bool.false_eq_true, Sensor1C._from_trace_su, Sensor1C.fromTraceRaw,
    Sensor1C.init, ActiveTimeSeries.init, if_pos hd, h4, hx, hy]
  simp only [Except.map, Except.ok.injEq, Sensor1C.mk.injEq,
    ActiveTimeSeries.mk.injEq]
  norm_num

theorem su_convention_b_adapter_witness :
    ((⟨[1, 2], ⟨some (r"su"), 1, ⟨1, 0, 0⟩, ⟨4, 0, 12000, 6000⟩⟩⟩ :
        Trace).stats._format = some (r"su")) ∧
    ((r"su").toUpper = r"SU") ∧
    ((⟨[1, 2], ⟨some (r"su"), 1, ⟨1, 0, 0⟩, ⟨4, 0, 12000, 6000⟩⟩⟩ :
        Trace).stats.su.delay_recording_time ≤ 0) ∧
    ∃ s : Sensor1C,
      Sensor1C.from_trace
        ⟨[1, 2], ⟨some (r"su"), 1, ⟨1, 0, 0⟩, ⟨4, 0, 12000, 6000⟩⟩⟩
        true 1 0 0 0 0 = .ok s ∧
      s.ats.nstacks = 5 ∧ s.x = 12 ∧ s.y = 6 ∧ s.z = 0 :=
  ⟨rfl, by with_unfolding_all rfl, by with_unfolding_all decide,
   su_convention_b_adapter
     ⟨[1, 2], ⟨some (r"su"), 1, ⟨1, 0, 0⟩, ⟨4, 0, 12000, 6000⟩⟩⟩
     (r"su") rfl (by with_unfolding_all rfl) rfl rfl rfl
     (by with_unfolding_all decide) 1 0 0 0 0⟩

/-- Claim C2: in the non-expanding case
(`requiredSamples ≤ sampleCount`, with positive `dt` and `targetDf`),
zero-pad selects the smallest multiple `m` of `{1,2,4,8,16,32}` with
`sampleCount < requiredSamples * m`, pads with zeros until
`sampleCount = requiredSamples * m`, and sets `zeroPadMultiple = m`;
when no such multiple exists (`sampleCount ≥ requiredSamples * 32`)
the operation fails with the (resolution-unsupported) `IndexError`
raised at the candidate lookup, leaving the state untouched, and it
never truncates or succeeds silently. -/
theorem zero_pad_multiple_selection (ts : TimeSeries) (df : ℚ)
    (_hdt : 0 < ts.dt) (hdf : 0 < df)
    (hle : ts.nreqOf df ≤ ts.nsamples) :
    (∀ m ∈ TimeSeries.mults, ts.nsamples < ts.nreqOf df * m →
      (∀ k ∈ TimeSeries.mults, ts.nsamples < ts.nreqOf df * k → m ≤ k) →
      ts.zero_pad df =
        (⟨ts.amp ++ List.replicate (ts.nreqOf df * m - ts.nsamples) 0,
          ts.dt, ts.nreqOf df * m, ts.nstack, ts.delay, m⟩, none)) ∧
    (ts.nsamples < ts.nreqOf df * 32 → (ts.zero_pad df).2 = none) ∧
    (ts.nreqOf df * 32 ≤ ts.nsamples →
      ts.zero_pad df = (ts, some PyError.indexError)) := by
  have h0 : ¬ (df ≤ 0) := not_le.mpr hdf
  have hnlt : ¬ (ts.nsamples < ts.nreqOf df) := not_lt.mpr hle
  refine ⟨?_, ?_, ?_⟩
  · intro m hm hlt hleast
    simp only [TimeSeries.zero_pad, if_neg h0, if_neg hnlt]
    rw [find_mults_least ts.nsamples (ts.nreqOf df) m hm hlt hleast]
  · intro h32
    simp only [TimeSeries.zero_pad, if_neg h0, if_neg hnlt]
    rcases hfind : TimeSeries.mults.find?
        (fun m => ts.nsamples < ts.nreqOf df * m) with _ | m
    · exfalso
      have := List.find?_eq_none.mp hfind 32 (by simp [TimeSeries.mults])
      simp only [decide_eq_true_eq] at this
      exact this h32
    · rfl
  · intro h32
    have hfind : TimeSeries.mults.find?
        (fun m => ts.nsamples < ts.nreqOf df * m) = none := by
      refine List.find?_eq_none.mpr ?_
      intro k hk
      have hk32 : k ≤ 32 := by
        have : k = 1 ∨ k = 2 ∨ k = 4 ∨ k = 8 ∨ k = 16 ∨ k = 32 := by
          simpa [TimeSeries.mults] using hk
        rcases this with h | h | h | h | h | h <;> omega
      have hmul : ts.nreqOf df * k ≤ ts.nreqOf df * 32 :=
        Nat.mul_le_mul_left _ hk32
      simp only [decide_eq_true_eq]
      omega
    simp only [TimeSeries.zero_pad, if_neg h0, if_neg hnlt, hfind]

theorem zero_pad_multiple_selection_witness :
    ((0 : ℚ) < (⟨List.replicate 10 0, 1, 10, 1, 0, 1⟩ : TimeSeries).dt) ∧
    ((0 : ℚ) < 1/5) ∧
    (TimeSeries.nreqOf ⟨List.replicate 10 0, 1, 10, 1, 0, 1⟩ (1/5) ≤ 10) ∧
    TimeSeries.zero_pad ⟨List.replicate 10 0, 1, 10, 1, 0, 1⟩ (1/5) =
      (⟨List.replicate 10 0 ++ List.replicate
          (TimeSeries.nreqOf ⟨List.replicate 10 0, 1, 10, 1, 0, 1⟩ (1/5) * 4
            - 10) 0,
        1, TimeSeries.nreqOf ⟨List.replicate 10 0, 1, 10, 1, 0, 1⟩ (1/5) * 4,
        1, 0, 4⟩, none) :=
  ⟨by with_unfolding_all decide, by with_unfolding_all decide,
   by with_unfolding_all decide,
   (zero_pad_multiple_selection ⟨List.replicate 10 0, 1, 10, 1, 0, 1⟩ (1/5)
       (by with_unfolding_all decide) (by with_unfolding_all decide)
       (by with_unfolding_all decide)).1 4
     (by with_unfolding_all decide) (by with_unfolding_all decide)
     (by with_unfolding_all decide)⟩

/-- Claim C4: stack-average append implements the weighted running
mean; appending a finite list of recordings with positive stack counts
one at a time yields, over exact arithmetic, the stack-count total and
elementwise the single weighted mean of the initial waveform and all
recordings, and the final state is independent of the order of the
appends. -/
theorem stack_append_weighted_mean (ts : TimeSeries)
    (l : List (List ℚ × ℕ))
    (hlen : ∀ r ∈ l, r.1.length = ts.amp.length)
    (hp : 0 < ts.nstack) (_hq : ∀ r ∈ l, 0 < r.2) :
    (TimeSeries.stackAll ts l).nstack =
      ts.nstack + (l.map (fun r => r.2)).sum ∧
    (∀ i, i < ts.amp.length →
      (TimeSeries.stackAll ts l).amp.getD i 0 =
        (ts.amp.getD i 0 * (ts.nstack : ℚ) +
          (l.map (fun r => r.1.getD i 0 * (r.2 : ℚ))).sum) /
          ((ts.nstack : ℚ) + (((l.map (fun r => r.2)).sum : ℕ) : ℚ))) ∧
    (∀ l', List.Perm l l' →
      TimeSeries.stackAll ts l' = TimeSeries.stackAll ts l) := by
  have hc := stackAll_closed l ts hlen hp
  have hlenfold : ∀ r ∈ l, r.1.length =
      (ts.amp.map (fun a => a * (ts.nstack : ℚ))).length := by
    intro r hr
    rw [List.length_map]
    exact hlen r hr
  refine ⟨?_, ?_, ?_⟩
  · rw [hc]
  · intro i hi
    rw [hc]
    dsimp only
    have hWlen : (l.foldl wsum
        (ts.amp.map (fun a => a * (ts.nstack : ℚ)))).length =
        ts.amp.length := by
      rw [foldl_wsum_length l _ hlenfold, List.length_map]
    rw [map_getD _ _ i (by rw [hWlen]; exact hi)]
    rw [foldl_wsum_getD l _ i (by rw [List.length_map]; exact hi) hlenfold]
    rw [map_getD _ _ i hi]
  · intro l' hperm
    have hlen' : ∀ r ∈ l', r.1.length = ts.amp.length :=
      fun r hr => hlen r (hperm.symm.subset hr)
    rw [stackAll_closed l' ts hlen' hp, hc]
    have h1 : (l'.map (fun r => r.2)).sum = (l.map (fun r => r.2)).sum :=
      ((hperm.map (fun r => r.2)).sum_eq).symm
    have h2 : l'.foldl wsum (ts.amp.map (fun a => a * (ts.nstack : ℚ))) =
        l.foldl wsum (ts.amp.map (fun a => a * (ts.nstack : ℚ))) :=
      (hperm.foldl_eq (ts.amp.map (fun a => a * (ts.nstack : ℚ)))).symm
    rw [h1, h2]

theorem stack_append_weighted_mean_witness :
    (∀ r ∈ [([(3 : ℚ), 3, 3], 1), ([(5 : ℚ), 5, 5], 2)],
      r.1.length = (⟨[1, 1, 1], 1, 3, 1, 0, 1⟩ : TimeSeries).amp.length) ∧
    (0 < (⟨[(1 : ℚ), 1, 1], 1, 3, 1, 0, 1⟩ : TimeSeries).nstack) ∧
    (∀ r ∈ [([(3 : ℚ), 3, 3], 1), ([(5 : ℚ), 5, 5], 2)], 0 < r.2) ∧
    ((TimeSeries.stackAll ⟨[1, 1, 1], 1, 3, 1, 0, 1⟩
        [([3, 3, 3], 1), ([5, 5, 5], 2)]).nstack =
      (⟨[(1 : ℚ), 1, 1], 1, 3, 1, 0, 1⟩ : TimeSeries).nstack +
        (([([(3 : ℚ), 3, 3], 1), ([(5 : ℚ), 5, 5], 2)]).map
          (fun r => r.2)).sum ∧
     (∀ i, i < (⟨[(1 : ℚ), 1, 1], 1, 3, 1, 0, 1⟩ : TimeSeries).amp.length →
       (TimeSeries.stackAll ⟨[1, 1, 1], 1, 3, 1, 0, 1⟩
          [([3, 3, 3], 1), ([5, 5, 5], 2)]).amp.getD i 0 =
         ((⟨[(1 : ℚ), 1, 1], 1, 3, 1, 0, 1⟩ : TimeSeries).amp.getD i 0 *
            ((⟨[(1 : ℚ), 1, 1], 1, 3, 1, 0, 1⟩ : TimeSeries).nstack : ℚ) +
           (([([(3 : ℚ), 3, 3], 1), ([(5 : ℚ), 5, 5], 2)]).map
             (fun r => r.1.getD i 0 * (r.2 : ℚ))).sum) /
           (((⟨[(1 : ℚ), 1, 1], 1, 3, 1, 0, 1⟩ : TimeSeries).nstack : ℚ) +
             (((([([(3 : ℚ), 3, 3], 1), ([(5 : ℚ), 5, 5], 2)]).map
               (fun r => r.2)).sum : ℕ) : ℚ))) ∧
     (∀ l', List.Perm [([(3 : ℚ), 3, 3], 1), ([(5 : ℚ), 5, 5], 2)] l' →
       TimeSeries.stackAll ⟨[1, 1, 1], 1, 3, 1, 0, 1⟩ l' =
         TimeSeries.stackAll ⟨[1, 1, 1], 1, 3, 1, 0, 1⟩
           [([3, 3, 3], 1), ([5, 5, 5], 2)])) ∧
    TimeSeries.stackAll ⟨[1, 1, 1], 1, 3, 1, 0, 1⟩
        [([3, 3, 3], 1), ([5, 5, 5], 2)] =
      ⟨[7/2, 7/2, 7/2], 1, 3, 4, 0, 1⟩ :=
  ⟨by with_unfolding_all decide, by with_unfolding_all decide,
   by with_unfolding_all decide,
   stack_append_weighted_mean ⟨[1, 1, 1], 1, 3, 1, 0, 1⟩
     [([3, 3, 3], 1), ([5, 5, 5], 2)] (by with_unfolding_all decide)
     (by with_unfolding_all decide) (by with_unfolding_all decide),
   by with_unfolding_all rfl⟩
